import Mathlib

/-!
Shallow embedding of `DataFrameChangeTracker.py` (diff engine, change
reporter, instrumentation wrapper) and proofs about it.

Modelling conventions:
* A pandas cell value is `Value`: an integer, a string, or the missing
  marker `NaN` (`Value.na`).
* A DataFrame is a row-label index together with named columns; each
  column carries a declared dtype label and a value list aligned to the
  index.
* Python `set` objects have an unspecified iteration order.  Every place
  the source iterates a set or converts one to a list
  (`for col in common_cols`, `list(set(...) - set(...))`,
  `list(changes["content_changes"])`) is modelled by applying an
  enumeration parameter `σ : List String → List String` to the
  insertion-order listing of the set's elements; `σ` is assumed to
  return a permutation of its input (`SetEnum σ`), which is all CPython
  guarantees.
-/

/-- A cell value: an integer, a string, or the missing marker (NaN/None). -/
inductive Value where
  | int : Int → Value
  | str : String → Value
  | na  : Value
deriving DecidableEq, Repr

/-- Missing-value-aware cell equality as used by `pandas.Series.equals`:
NaN at the same location is considered equal to NaN. -/
def valueEqEquals : Value → Value → Bool
  | Value.int i, Value.int j => i == j
  | Value.str s, Value.str t => s == t
  | Value.na,    Value.na    => true
  | _,           _           => false

/-- Elementwise cell inequality as produced by the pandas `!=` operator:
NaN compares unequal to everything, including another NaN. -/
def cellNe : Value → Value → Bool
  | Value.na, _ => true
  | _, Value.na => true
  | v, w        => !(valueEqEquals v w)

/-- A column: declared dtype label plus the cell values, aligned to the
owning frame's row index. -/
structure Column where
  dtype : String
  data  : List Value
deriving DecidableEq, Repr

/-- A pandas Series extracted from a frame: the frame's row index paired
with one column's values. -/
structure Series where
  index : List Int
  data  : List Value
deriving DecidableEq, Repr

/-- A DataFrame snapshot: a row-label index and an ordered association
list of named columns. -/
structure DF where
  index : List Int
  cols  : List (String × Column)
deriving DecidableEq, Repr

/-- The column-name list, in frame order (`df.columns`). -/
def DF.colNames (df : DF) : List String :=
  df.cols.map Prod.fst

/-- Well-formedness of a snapshot: row labels are unique, column names
are unique, and every column has one value per row. -/
def DF.WF (df : DF) : Prop :=
  df.index.Nodup ∧ df.colNames.Nodup ∧
    ∀ p ∈ df.cols, p.2.data.length = df.index.length

instance (df : DF) : Decidable df.WF := by
  unfold DF.WF
  infer_instance

/-- Column lookup (`df[col]`); `none` models the KeyError pandas raises
for an absent name. -/
def lookupCol (df : DF) (col : String) : Option Column :=
  (df.cols.find? (fun p => p.1 == col)).map Prod.snd

/-- Total column access, used only where the source has already
established that the name is present in the frame. -/
def getCol (df : DF) (col : String) : Column :=
  (lookupCol df col).getD ⟨"", []⟩

/-- The Series `df[col]`: the frame's index with the column's values. -/
def getSeries (df : DF) (col : String) : Series :=
  ⟨df.index, (getCol df col).data⟩

/-- Pointwise missing-value-aware equality of two value lists, false
when the lengths differ (pandas `equals` checks shape first). -/
def valuesMatch : List Value → List Value → Bool
  | [], [] => true
  | v :: vs, w :: ws => valueEqEquals v w && valuesMatch vs ws
  | _, _ => false

/-- `pandas.Series.equals`: same row index (element-wise) and the same
values at every position, with NaN at the same location equal to NaN. -/
def seriesEquals (s t : Series) : Bool :=
  s.index == t.index && valuesMatch s.data t.data

/-- `set(l)` in Python: the distinct elements of `l`; insertion order
listing is first occurrence order. -/
def pySet (l : List String) : List String :=
  l.dedup

/-- The assumption on a set-enumeration function: Python only guarantees
that iterating a set yields each element exactly once, i.e. a
permutation of the insertion-order listing. -/
def SetEnum (σ : List String → List String) : Prop :=
  ∀ l : List String, List.Perm (σ l) l

/-- The `rows` part of the change report
(`{"before": ..., "after": ..., "difference": ...}`). -/
structure RowChanges where
  before : Nat
  after : Nat
  difference : Int
deriving DecidableEq, Repr

/-- The `columns` part of the change report. -/
structure ColumnChanges where
  added : List String
  removed : List String
  modified : List String
deriving DecidableEq, Repr

/-- The full change report returned by `compare_df`.  `schema_changes`
is the association list `col ↦ (before dtype, after dtype)` in loop
order; `content_changes` is the final `list(...)` of the content set. -/
structure Changes where
  rows : RowChanges
  columns : ColumnChanges
  schema_changes : List (String × String × String)
  content_changes : List String
deriving DecidableEq, Repr

/-- The iteration sequence of `set(df_before.columns) & set(df_after.columns)`:
the distinct common names, listed by the set enumeration `σ`. -/
def commonCols (σ : List String → List String) (b a : DF) : List String :=
  σ ((pySet b.colNames).filter (fun c => a.colNames.contains c))

/-- `DataFrameChangeTracker.compare_df`.  The single pass over the
common columns records a schema entry when the dtypes differ and,
independently, appends the name to `columns.modified` and adds it to the
`content_changes` set when `Series.equals` is false; since both happen
under the same condition the content set's insertion-order listing is
exactly `modified`, and the final `list(...)` applies `σ` to it. -/
def compare_df (σ : List String → List String) (df_before df_after : DF) :
    Changes :=
  let common := commonCols σ df_before df_after
  let modified := common.filter
    (fun col => !(seriesEquals (getSeries df_before col) (getSeries df_after col)))
  { rows := { before := df_before.index.length
              after := df_after.index.length
              difference :=
                (df_after.index.length : Int) - (df_before.index.length : Int) }
    columns :=
      { added := σ ((pySet df_after.colNames).filter
          (fun c => !(df_before.colNames.contains c)))
        removed := σ ((pySet df_before.colNames).filter
          (fun c => !(df_after.colNames.contains c)))
        modified := modified }
    schema_changes := common.filterMap
      (fun col =>
        if (getCol df_before col).dtype ≠ (getCol df_after col).dtype then
          some (col, (getCol df_before col).dtype, (getCol df_after col).dtype)
        else none)
    content_changes := σ modified }

/-- The loop of `compare_df` with the column accesses `df_before[col]`,
`df_after[col]` threaded through `Option`: a `none` models the KeyError
pandas would raise for an absent column name.  Returns the
`schema_changes` association list and the `columns.modified` list (which
is also the insertion-order listing of the `content_changes` set). -/
def compareLoopE (b a : DF) :
    List String → Option (List (String × String × String) × List String)
  | [] => some ([], [])
  | col :: rest => do
    let cb ← lookupCol b col
    let ca ← lookupCol a col
    let (sch, mods) ← compareLoopE b a rest
    let sch' := if cb.dtype ≠ ca.dtype then (col, cb.dtype, ca.dtype) :: sch else sch
    let mods' :=
      if seriesEquals ⟨b.index, cb.data⟩ ⟨a.index, ca.data⟩ then mods
      else col :: mods
    some (sch', mods')

/-- `compare_df` with every fallible snapshot access made explicit:
`none` is a raised exception.  Used to state that the engine is total. -/
def compare_dfE (σ : List String → List String) (df_before df_after : DF) :
    Option Changes :=
  (compareLoopE df_before df_after (commonCols σ df_before df_after)).map
    (fun p =>
      { rows := { before := df_before.index.length
                  after := df_after.index.length
                  difference :=
                    (df_after.index.length : Int) - (df_before.index.length : Int) }
        columns :=
          { added := σ ((pySet df_after.colNames).filter
              (fun c => !(df_before.colNames.contains c)))
            removed := σ ((pySet df_before.colNames).filter
              (fun c => !(df_after.colNames.contains c)))
            modified := p.2 }
        schema_changes := p.1
        content_changes := σ p.2 })

/-- The empty/no-column snapshot. -/
def emptyDF : DF := ⟨[], []⟩

/-- `df_before.index.intersection(df_after.index)` (pandas
`Index.intersection`): the distinct labels of the left index that also
occur in the right one, in left order. -/
def commonIndices (b a : DF) : List Int :=
  (b.index.dedup).filter (fun i => a.index.contains i)

/-- `df.loc[i, col]`: the value of column `col` at row label `i`.  Only
used at labels known to be in the frame's index; the default is never
reached there. -/
def locVal (df : DF) (col : String) (i : Int) : Value :=
  match df.index.findIdx? (fun j => j == i) with
  | some k => ((getCol df col).data).getD k Value.na
  | none   => Value.na

/-- The row labels selected by the reporter's
`changed_mask = df_before.loc[common, col] != df_after.loc[common, col]`:
labels in the index intersection whose two values compare unequal under
the pandas `!=` operator (NaN unequal to everything, NaN included). -/
def changedRows (b a : DF) (col : String) : List Int :=
  (commonIndices b a).filter
    (fun i => cellNe (locVal b col i) (locVal a col i))

/-- One row of the reporter's before/after comparison table for a
column, plus the optional before-value of a column literally named
"name" as contextual label. -/
structure DisplayEvent where
  column : String
  rowLabel : Int
  before : Value
  after : Value
  context : Option Value
deriving DecidableEq, Repr

/-- The comparison-table rows the reporter would print for one column
(the body of the `if changed_mask.any():` block). -/
def rowEvents (b a : DF) (col : String) : List DisplayEvent :=
  (changedRows b a col).map
    (fun i =>
      { column := col
        rowLabel := i
        before := locVal b col i
        after := locVal a col i
        context :=
          if b.colNames.contains "name" then some (locVal b "name" i)
          else none })

/-- `_print_content_changes` (the per-column loop at the end of the
decorator's `wrapper` in the flat copy): for each column of
`content_changes`, emit its comparison-table rows when the changed mask
selects at least one row, and nothing for that column otherwise. -/
def print_content_changes (b a : DF) (content : List String) :
    List DisplayEvent :=
  content.flatMap
    (fun col =>
      if changedRows b a col = [] then [] else rowEvents b a col)

/-- A Python runtime value as seen by the wrapper: a DataFrame or some
other (opaque, tagged) object. -/
inductive PyVal where
  | df : DF → PyVal
  | other : Nat → PyVal
deriving DecidableEq, Repr

/-- `isinstance(v, pd.DataFrame)`. -/
def isDF : PyVal → Bool
  | PyVal.df _ => true
  | PyVal.other _ => false

/-- Extract the DataFrame from a value when it is one. -/
def asDF : PyVal → Option DF
  | PyVal.df d => some d
  | PyVal.other _ => none

/-- The wrapper's search for `df_before`: the first DataFrame among the
positional arguments, else the first among the keyword-argument values
(in insertion order), else `none`.  `arg.copy()` is the identity on our
immutable snapshots. -/
def findDFArg (args : List PyVal) (kwargs : List (String × PyVal)) :
    Option DF :=
  match args.find? isDF with
  | some v => asDF v
  | none => ((kwargs.map Prod.snd).find? isDF).bind asDF

/-- The decorator's `wrapper`: capture `df_before`, call the wrapped
function, and only when the result is a DataFrame and a before-frame was
found invoke the diff core.  Returns the wrapped function's result
together with the report the core produced, `none` when the core was not
invoked at all. -/
def wrapper (σ : List String → List String)
    (f : List PyVal → List (String × PyVal) → PyVal)
    (args : List PyVal) (kwargs : List (String × PyVal)) :
    PyVal × Option Changes :=
  let df_before := findDFArg args kwargs
  let result := f args kwargs
  match df_before, asDF result with
  | some b, some r => (result, some (compare_df σ b r))
  | _, _ => (result, none)

/-- Modelled from the spec's words (§4.1 step 3b): two columns are equal
iff they have identical row index and, at every shared index position,
equal values under missing-value-aware equality; equality is computed
over the full aligned index union, so an index present in only one side
constitutes a difference. -/
def specColumnsEqual (s t : Series) : Prop :=
  s.index = t.index ∧
  (∀ i : Int, i ∈ s.index ↔ i ∈ t.index) ∧
  ∀ k : Nat, k < s.index.length → k < t.index.length →
    valueEqEquals (s.data.getD k Value.na) (t.data.getD k Value.na) = true

/-! ### Helper lemmas -/

theorem contains_iff {α : Type} [BEq α] [LawfulBEq α] {l : List α} {c : α} :
    l.contains c = true ↔ c ∈ l := by
  simp [List.contains_iff_exists_mem_beq]

theorem valueEqEquals_iff {v w : Value} : valueEqEquals v w = true ↔ v = w := by
  cases v <;> cases w <;> simp [valueEqEquals]

theorem valuesMatch_iff {xs ys : List Value} : valuesMatch xs ys = true ↔ xs = ys := by
  induction xs generalizing ys with
  | nil => cases ys <;> simp [valuesMatch]
  | cons v vs ih =>
    cases ys with
    | nil => simp [valuesMatch]
    | cons w ws => simp [valuesMatch, valueEqEquals_iff, ih]

theorem seriesEquals_iff {s t : Series} : seriesEquals s t = true ↔ s = t := by
  cases s; cases t
  simp [seriesEquals, valuesMatch_iff, Series.mk.injEq]

theorem lookupCol_eq_some {df : DF} {c : String} (h : c ∈ df.colNames) :
    lookupCol df c = some (getCol df c) := by
  rcases List.mem_map.mp h with ⟨p, hp, he⟩
  have hsome : (df.cols.find? (fun q => q.1 == c)).isSome := by
    rw [List.find?_isSome]
    exact ⟨p, hp, by simp [he]⟩
  rcases hf : df.cols.find? (fun q => q.1 == c) with _ | q
  · rw [hf] at hsome; simp at hsome
  · simp [lookupCol, getCol, hf]

theorem getCol_mem {df : DF} {c : String} (h : c ∈ df.colNames) :
    (c, getCol df c) ∈ df.cols := by
  have hl := lookupCol_eq_some h
  unfold lookupCol at hl
  rcases hf : df.cols.find? (fun q => q.1 == c) with _ | q
  · rw [hf] at hl; simp at hl
  · rw [hf] at hl
    simp at hl
    have hq : q.1 = c := by
      have := List.find?_some hf
      simpa using this
    have hm := List.mem_of_find?_eq_some hf
    rw [← hl, ← hq]
    exact hm

theorem getCol_data_length {df : DF} {c : String} (hwf : df.WF)
    (h : c ∈ df.colNames) : (getCol df c).data.length = df.index.length :=
  hwf.2.2 (c, getCol df c) (getCol_mem h)

theorem mem_commonCols {σ : List String → List String} (hσ : SetEnum σ)
    {b a : DF} {c : String} :
    c ∈ commonCols σ b a ↔ c ∈ b.colNames ∧ c ∈ a.colNames := by
  rw [commonCols, (hσ _).mem_iff]
  simp [pySet, List.mem_filter, List.mem_dedup, contains_iff]

theorem nodup_commonCols {σ : List String → List String} (hσ : SetEnum σ)
    (b a : DF) : (commonCols σ b a).Nodup :=
  (hσ _).nodup_iff.mpr ((List.nodup_dedup _).filter _)

theorem mem_compare_added {σ : List String → List String} (hσ : SetEnum σ)
    {b a : DF} {c : String} :
    c ∈ (compare_df σ b a).columns.added ↔ c ∈ a.colNames ∧ c ∉ b.colNames := by
  show c ∈ σ _ ↔ _
  rw [(hσ _).mem_iff]
  simp [pySet, List.mem_filter, List.mem_dedup, contains_iff]

theorem mem_compare_removed {σ : List String → List String} (hσ : SetEnum σ)
    {b a : DF} {c : String} :
    c ∈ (compare_df σ b a).columns.removed ↔ c ∈ b.colNames ∧ c ∉ a.colNames := by
  show c ∈ σ _ ↔ _
  rw [(hσ _).mem_iff]
  simp [pySet, List.mem_filter, List.mem_dedup, contains_iff]

theorem mem_compare_modified {σ : List String → List String}
    {b a : DF} {c : String} :
    c ∈ (compare_df σ b a).columns.modified ↔
      c ∈ commonCols σ b a ∧
        ¬ seriesEquals (getSeries b c) (getSeries a c) = true := by
  show c ∈ List.filter _ _ ↔ _
  simp [List.mem_filter]

theorem compare_content_eq {σ : List String → List String} (b a : DF) :
    (compare_df σ b a).content_changes = σ (compare_df σ b a).columns.modified :=
  rfl

/-- Identity is an admissible set enumeration. -/
theorem setEnum_id : SetEnum id := fun l => List.Perm.refl l

/-- Reversal is an admissible set enumeration. -/
theorem setEnum_reverse : SetEnum List.reverse := fun l => List.reverse_perm l

/-! ### Concrete example snapshots (shared by witnesses and counterexamples) -/

/-- Two-column frame, one row, used as a generic "before" example. -/
def exColB : DF :=
  ⟨[0], [("a", ⟨"int64", [Value.int 1]⟩), ("b", ⟨"int64", [Value.int 2]⟩)]⟩

/-- Two-column frame, one row, both values changed w.r.t. `exColB`. -/
def exColA : DF :=
  ⟨[0], [("a", ⟨"int64", [Value.int 10]⟩), ("b", ⟨"int64", [Value.int 20]⟩)]⟩

/-- Before-frame with a NaN: column `x` is NaN at row 1 and 5 at row 2. -/
def exNanB : DF := ⟨[1, 2], [("x", ⟨"float64", [Value.na, Value.int 5]⟩)]⟩

/-- After-frame: same values as `exNanB` on the shared labels 1 and 2
(NaN and 5), plus an extra row 3. -/
def exNanA : DF :=
  ⟨[1, 2, 3], [("x", ⟨"float64", [Value.na, Value.int 5, Value.int 7]⟩)]⟩

/-! ### Claim C1 -/

/-- C1 (counterexample): under the admissible set enumeration that
reverses the insertion-order listing, `content_changes` (the `list(...)`
of the content set) does not come out in the insertion order recorded in
`columns.modified`: the loop visits `b` then `a`, `modified` is
`["b", "a"]`, but the listed set is `["a", "b"]`. -/
theorem c1_counterexample :
    SetEnum List.reverse ∧
    (compare_df List.reverse exColB exColA).content_changes ≠
      (compare_df List.reverse exColB exColA).columns.modified :=
  ⟨setEnum_reverse, by decide⟩

/-- C1 (amended): for every admissible set enumeration and every pair of
snapshots, `content_changes` contains exactly the names recorded in
`columns.modified` — it is a permutation of them — but the code does not
guarantee that the listing of the content set preserves the insertion
order, so the orders need not coincide. -/
theorem c1_content_perm_modified (σ : List String → List String)
    (hσ : SetEnum σ) (b a : DF) :
    List.Perm (compare_df σ b a).content_changes
      (compare_df σ b a).columns.modified := by
  rw [compare_content_eq]
  exact hσ _

/-- C1 witness: the amended statement at a concrete input. -/
theorem c1_witness :
    List.Perm (compare_df id exColB exColA).content_changes
      (compare_df id exColB exColA).columns.modified :=
  c1_content_perm_modified id setEnum_id exColB exColA

/-! ### Claim C3 -/

/-- C3: comparing any snapshot with itself yields a report with zero row
difference, empty added/removed/modified column lists, empty schema
changes and empty content changes. -/
theorem c3_compare_self (σ : List String → List String) (hσ : SetEnum σ)
    (A : DF) :
    (compare_df σ A A).rows.difference = 0 ∧
    (compare_df σ A A).columns.added = [] ∧
    (compare_df σ A A).columns.removed = [] ∧
    (compare_df σ A A).columns.modified = [] ∧
    (compare_df σ A A).schema_changes = [] ∧
    (compare_df σ A A).content_changes = [] := by
  have hdiff : ∀ l : List String,
      (pySet l).filter (fun c => !(l.contains c)) = [] := by
    intro l
    rw [List.filter_eq_nil_iff]
    intro c hc
    simp only [pySet, List.mem_dedup] at hc
    simp [contains_iff]
    exact hc
  have hmod : (compare_df σ A A).columns.modified = [] := by
    show List.filter _ _ = []
    rw [List.filter_eq_nil_iff]
    intro c _
    have hse : seriesEquals (getSeries A c) (getSeries A c) = true :=
      seriesEquals_iff.mpr rfl
    simp [hse]
  refine ⟨?_, ?_, ?_, hmod, ?_, ?_⟩
  · show (A.index.length : Int) - (A.index.length : Int) = 0
    simp
  · show σ _ = []
    rw [hdiff]
    exact (hσ []).eq_nil
  · show σ _ = []
    rw [hdiff]
    exact (hσ []).eq_nil
  · show List.filterMap _ _ = []
    rw [List.filterMap_eq_nil_iff]
    intro c _
    simp
  · rw [compare_content_eq, hmod]
    exact (hσ []).eq_nil

/-- C3 witness: the identity-comparison statement at a concrete
snapshot. -/
theorem c3_witness :
    (compare_df id exColB exColB).rows.difference = 0 ∧
    (compare_df id exColB exColB).columns.added = [] ∧
    (compare_df id exColB exColB).columns.removed = [] ∧
    (compare_df id exColB exColB).columns.modified = [] ∧
    (compare_df id exColB exColB).schema_changes = [] ∧
    (compare_df id exColB exColB).content_changes = [] :=
  c3_compare_self id setEnum_id exColB

/-! ### Claim C4 -/

/-- C4: the columns reported as added when comparing `A` to `B` are
exactly the ones reported as removed when comparing `B` to `A` (the
code even produces the same list, not merely the same set). -/
theorem c4_added_removed_swap (σ : List String → List String) (A B : DF) :
    (compare_df σ A B).columns.added = (compare_df σ B A).columns.removed ∧
    ∀ c : String,
      c ∈ (compare_df σ A B).columns.added ↔
        c ∈ (compare_df σ B A).columns.removed :=
  ⟨rfl, fun _ => Iff.rfl⟩

/-- C4 witness: the swap symmetry at a concrete pair of snapshots. -/
theorem c4_witness :
    (compare_df id exColB exNanA).columns.added =
      (compare_df id exNanA exColB).columns.removed :=
  (c4_added_removed_swap id exColB exNanA).1

/-! ### Claim C5 -/

/-- C5: the reported row difference is always exactly the after row
count minus the before row count (as integers, so negative when rows
were removed), derived from the two reported counts. -/
theorem c5_rows_difference (σ : List String → List String) (b a : DF) :
    (compare_df σ b a).rows.difference =
      ((compare_df σ b a).rows.after : Int) -
        ((compare_df σ b a).rows.before : Int) ∧
    (compare_df σ b a).rows.difference =
      (a.index.length : Int) - (b.index.length : Int) :=
  ⟨rfl, rfl⟩

/-- C5 witness: the row-difference derivation at a concrete pair with
fewer rows after than before (difference is negative). -/
theorem c5_witness :
    (compare_df id exNanA exColB).rows.difference =
      ((compare_df id exNanA exColB).rows.after : Int) -
        ((compare_df id exNanA exColB).rows.before : Int) :=
  (c5_rows_difference id exNanA exColB).1

/-! ### Claim C2 -/

/-- For aligned series (one value per index entry, as pandas
guarantees), the spec's column-equality over the aligned index union
coincides with the `Series.equals` test the code performs. -/
theorem specColumnsEqual_iff {s t : Series}
    (hs : s.data.length = s.index.length)
    (ht : t.data.length = t.index.length) :
    specColumnsEqual s t ↔ s = t := by
  constructor
  · rintro ⟨h1, _h2, h3⟩
    have hlen : s.data.length = t.data.length := by rw [hs, ht, h1]
    have hdata : s.data = t.data := by
      apply List.ext_getElem hlen
      intro n h₁ h₂
      have hn1 : n < s.index.length := hs ▸ h₁
      have hn2 : n < t.index.length := ht ▸ h₂
      have hv := h3 n hn1 hn2
      rw [valueEqEquals_iff] at hv
      rwa [List.getD_eq_getElem?_getD, List.getD_eq_getElem?_getD,
        List.getElem?_eq_getElem h₁, List.getElem?_eq_getElem h₂,
        Option.getD_some, Option.getD_some] at hv
    cases s; cases t
    simp only at h1 hdata
    simp [h1, hdata]
  · rintro rfl
    exact ⟨rfl, fun _ => Iff.rfl, fun _ _ _ => valueEqEquals_iff.mpr rfl⟩

/-- C2: a common column name is added to `content_changes` and appended
to `columns.modified` exactly when the two columns are not equal under
the spec's missing-value-aware equality over the full aligned index
union (identical row index and equal values at every shared position,
NaN equal only to NaN at the same position, a one-sided index being a
difference). -/
theorem c2_content_changes_iff (σ : List String → List String)
    (hσ : SetEnum σ) (b a : DF) (hb : b.WF) (ha : a.WF) (c : String)
    (hcb : c ∈ b.colNames) (hca : c ∈ a.colNames) :
    (c ∈ (compare_df σ b a).content_changes ↔
      ¬ specColumnsEqual (getSeries b c) (getSeries a c)) ∧
    (c ∈ (compare_df σ b a).columns.modified ↔
      ¬ specColumnsEqual (getSeries b c) (getSeries a c)) := by
  have hspec : specColumnsEqual (getSeries b c) (getSeries a c) ↔
      getSeries b c = getSeries a c :=
    specColumnsEqual_iff (by simp [getSeries, getCol_data_length hb hcb])
      (by simp [getSeries, getCol_data_length ha hca])
  have hmem : c ∈ (compare_df σ b a).columns.modified ↔
      ¬ specColumnsEqual (getSeries b c) (getSeries a c) := by
    rw [mem_compare_modified, hspec, ← seriesEquals_iff]
    exact ⟨fun h => h.2, fun h => ⟨(mem_commonCols hσ).mpr ⟨hcb, hca⟩, h⟩⟩
  have hcontent : c ∈ (compare_df σ b a).content_changes ↔
      c ∈ (compare_df σ b a).columns.modified := by
    rw [compare_content_eq]
    exact (hσ _).mem_iff
  exact ⟨hcontent.trans hmem, hmem⟩

/-- C2 witness: the classification at a concrete common column whose
values changed. -/
theorem c2_witness :
    ("a" ∈ (compare_df id exColB exColA).content_changes ↔
      ¬ specColumnsEqual (getSeries exColB "a") (getSeries exColA "a")) ∧
    ("a" ∈ (compare_df id exColB exColA).columns.modified ↔
      ¬ specColumnsEqual (getSeries exColB "a") (getSeries exColA "a")) :=
  c2_content_changes_iff id setEnum_id exColB exColA (by decide) (by decide)
    "a" (by decide) (by decide)

/-! ### Claim C10 -/

/-- C10: structural invariants of every report: `added` and `removed`
are disjoint from each other and from the common names; schema keys,
content-change members and `modified` entries are common names; and
`modified` lists each name at most once. -/
theorem c10_report_invariants (σ : List String → List String)
    (hσ : SetEnum σ) (b a : DF) :
    (∀ c ∈ (compare_df σ b a).columns.added,
        c ∉ (compare_df σ b a).columns.removed) ∧
    (∀ c ∈ (compare_df σ b a).columns.added,
        ¬(c ∈ b.colNames ∧ c ∈ a.colNames)) ∧
    (∀ c ∈ (compare_df σ b a).columns.removed,
        ¬(c ∈ b.colNames ∧ c ∈ a.colNames)) ∧
    (∀ e ∈ (compare_df σ b a).schema_changes,
        e.1 ∈ b.colNames ∧ e.1 ∈ a.colNames) ∧
    (∀ c ∈ (compare_df σ b a).content_changes,
        c ∈ b.colNames ∧ c ∈ a.colNames) ∧
    (∀ c ∈ (compare_df σ b a).columns.modified,
        c ∈ b.colNames ∧ c ∈ a.colNames) ∧
    (compare_df σ b a).columns.modified.Nodup := by
  have hmod_sub : ∀ c ∈ (compare_df σ b a).columns.modified,
      c ∈ b.colNames ∧ c ∈ a.colNames := by
    intro c hc
    rw [mem_compare_modified] at hc
    exact (mem_commonCols hσ).mp hc.1
  refine ⟨?_, ?_, ?_, ?_, ?_, hmod_sub, ?_⟩
  · intro c hc
    rw [mem_compare_added hσ] at hc
    rw [mem_compare_removed hσ]
    intro hr
    exact hc.2 hr.1
  · intro c hc
    rw [mem_compare_added hσ] at hc
    intro hr
    exact hc.2 hr.1
  · intro c hc
    rw [mem_compare_removed hσ] at hc
    intro hr
    exact hc.2 hr.2
  · intro e he
    have he' : e ∈ List.filterMap
        (fun col =>
          if (getCol b col).dtype ≠ (getCol a col).dtype then
            some (col, (getCol b col).dtype, (getCol a col).dtype)
          else none)
        (commonCols σ b a) := he
    rw [List.mem_filterMap] at he'
    rcases he' with ⟨col, hcol, hf⟩
    have hcc := (mem_commonCols hσ).mp hcol
    by_cases hd : (getCol b col).dtype ≠ (getCol a col).dtype
    · rw [if_pos hd] at hf
      cases hf
      exact hcc
    · rw [if_neg hd] at hf
      cases hf
  · intro c hc
    rw [compare_content_eq, (hσ _).mem_iff] at hc
    exact hmod_sub c hc
  · exact (nodup_commonCols hσ b a).filter _

/-- C10 witness: the `modified` list of a concrete report has no
duplicate entries. -/
theorem c10_witness :
    (compare_df id exColB exNanA).columns.modified.Nodup :=
  (c10_report_invariants id setEnum_id exColB exNanA).2.2.2.2.2.2

/-! ### Claim C7 -/

/-- When every visited name is a column of both frames — as is the case
for the common columns — the exception-aware loop raises nothing and
computes the same schema and modified lists as `compare_df`. -/
theorem compareLoopE_eq (b a : DF) (l : List String)
    (h : ∀ c ∈ l, c ∈ b.colNames ∧ c ∈ a.colNames) :
    compareLoopE b a l = some
      (l.filterMap (fun col =>
          if (getCol b col).dtype ≠ (getCol a col).dtype then
            some (col, (getCol b col).dtype, (getCol a col).dtype)
          else none),
        l.filter (fun col =>
          !(seriesEquals (getSeries b col) (getSeries a col)))) := by
  induction l with
  | nil => rfl
  | cons c rest ih =>
    obtain ⟨hcb, hca⟩ := h c (List.mem_cons_self c rest)
    have hrest := ih (fun x hx => h x (List.mem_cons_of_mem c hx))
    simp only [compareLoopE, lookupCol_eq_some hcb, lookupCol_eq_some hca,
      hrest, Option.some_bind, List.filterMap_cons, List.filter_cons]
    by_cases hd : (getCol b c).dtype ≠ (getCol a c).dtype <;>
      by_cases hs :
        seriesEquals ⟨b.index, (getCol b c).data⟩ ⟨a.index, (getCol a c).data⟩ =
          true <;>
      simp [getSeries, hd, hs]

/-- C7: the engine is total: the exception-aware version never returns
`none` (it always yields exactly the `compare_df` report), and comparing
the empty/no-column snapshot with itself produces the all-empty
report rather than an error. -/
theorem c7_engine_total (σ : List String → List String) (hσ : SetEnum σ)
    (b a : DF) :
    compare_dfE σ b a = some (compare_df σ b a) ∧
    compare_dfE σ emptyDF emptyDF =
      some { rows := ⟨0, 0, 0⟩, columns := ⟨[], [], []⟩,
             schema_changes := [], content_changes := [] } := by
  have htot : ∀ x y : DF, compare_dfE σ x y = some (compare_df σ x y) := by
    intro x y
    have h : ∀ c ∈ commonCols σ x y, c ∈ x.colNames ∧ c ∈ y.colNames :=
      fun c hc => (mem_commonCols hσ).mp hc
    rw [compare_dfE, compareLoopE_eq x y _ h]
    rfl
  refine ⟨htot b a, ?_⟩
  rw [htot emptyDF emptyDF]
  have hnil : σ [] = [] := (hσ []).eq_nil
  simp [compare_df, commonCols, pySet, emptyDF, DF.colNames, hnil]

/-- C7 witness: totality and the all-empty report at concrete inputs. -/
theorem c7_witness :
    compare_dfE id exNanB exNanA = some (compare_df id exNanB exNanA) ∧
    compare_dfE id emptyDF emptyDF =
      some { rows := ⟨0, 0, 0⟩, columns := ⟨[], [], []⟩,
             schema_changes := [], content_changes := [] } :=
  c7_engine_total id setEnum_id exNanB exNanA

/-! ### Claim C8 -/

theorem asDF_eq_none {v : PyVal} (h : isDF v = false) : asDF v = none := by
  cases v <;> simp_all [isDF, asDF]

/-- C8: the wrapper always returns exactly the wrapped function's
result, and when no DataFrame argument is found or the result is not a
DataFrame it does not invoke the diff/report core at all. -/
theorem c8_wrapper_transparent (σ : List String → List String)
    (f : List PyVal → List (String × PyVal) → PyVal)
    (args : List PyVal) (kwargs : List (String × PyVal)) :
    (wrapper σ f args kwargs).1 = f args kwargs ∧
    ((findDFArg args kwargs = none ∨ isDF (f args kwargs) = false) →
      (wrapper σ f args kwargs).2 = none) := by
  constructor
  · unfold wrapper
    cases hb : findDFArg args kwargs <;>
      cases hr : asDF (f args kwargs) <;> simp [hb, hr]
  · intro h
    unfold wrapper
    cases hb : findDFArg args kwargs with
    | none => simp [hb]
    | some d =>
      have hr : asDF (f args kwargs) = none := by
        rcases h with h | h
        · rw [hb] at h; cases h
        · exact asDF_eq_none h
      simp [hb, hr]

/-- A wrapped function returning a non-DataFrame value, for the C8
witness. -/
def exF : List PyVal → List (String × PyVal) → PyVal :=
  fun _ _ => PyVal.other 7

/-- C8 witness: a call with no DataFrame argument returns the function's
result unchanged and never invokes the core. -/
theorem c8_witness :
    (wrapper id exF [PyVal.other 1] []).1 = exF [PyVal.other 1] [] ∧
    (wrapper id exF [PyVal.other 1] []).2 = none :=
  ⟨(c8_wrapper_transparent id exF [PyVal.other 1] []).1,
    (c8_wrapper_transparent id exF [PyVal.other 1] []).2
      (Or.inl (by decide))⟩

/-! ### Claim C9 -/

/-- C9: in the reporter's per-row comparison, a shared row label whose
before-value and after-value are both missing is selected by the changed
mask (the elementwise `!=` treats NaN as different from NaN), even
though the engine's missing-value-aware equality deems those two cell
values equal. -/
theorem c9_nan_row_is_difference (b a : DF) (col : String) (i : Int)
    (hmem : i ∈ commonIndices b a)
    (hb : locVal b col i = Value.na) (ha : locVal a col i = Value.na) :
    i ∈ changedRows b a col ∧
      valueEqEquals (locVal b col i) (locVal a col i) = true := by
  refine ⟨?_, by rw [hb, ha]; rfl⟩
  apply List.mem_filter.mpr
  refine ⟨hmem, ?_⟩
  rw [hb, ha]
  rfl

/-- C9 witness: at the concrete NaN pair, label 1 (NaN on both sides)
is selected by the mask, the engine's equality deems the two values
equal, and the reporter does emit display events. -/
theorem c9_witness :
    (1 ∈ commonIndices exNanB exNanA ∧
      locVal exNanB "x" 1 = Value.na ∧ locVal exNanA "x" 1 = Value.na) ∧
    (1 ∈ changedRows exNanB exNanA "x" ∧
      valueEqEquals (locVal exNanB "x" 1) (locVal exNanA "x" 1) = true) ∧
    print_content_changes exNanB exNanA
      (compare_df id exNanB exNanA).content_changes ≠ [] :=
  ⟨⟨by decide, by decide, by decide⟩,
    c9_nan_row_is_difference exNanB exNanA "x" 1 (by decide) (by decide)
      (by decide),
    by decide⟩

/-! ### Claim C6 -/

/-- C6 (counterexample): a column equal on the index intersection under
the engine's missing-value-aware equality (here `x`: NaN/NaN at label 1
and 5/5 at label 2, listed in `content_changes` only because the after
frame has the extra label 3) still yields per-row display events,
because the reporter's `!=` mask selects the NaN/NaN row. -/
theorem c6_counterexample :
    "x" ∈ (compare_df id exNanB exNanA).content_changes ∧
    (commonIndices exNanB exNanA).all
      (fun i => locVal exNanB "x" i == locVal exNanA "x" i) = true ∧
    (print_content_changes exNanB exNanA
        (compare_df id exNanB exNanA).content_changes).filter
      (fun e => e.column == "x") ≠ [] := by
  decide

/-- C6 (amended): if at every row label in the index intersection the
before-value and after-value compare equal under the reporter's
elementwise inequality — i.e. they are equal and neither is missing, so
the changed mask selects no row — then the reporter emits zero per-row
display events for that column. -/
theorem c6_no_events_when_mask_empty (b a : DF) (col : String)
    (content : List String)
    (h : ∀ i ∈ commonIndices b a,
      cellNe (locVal b col i) (locVal a col i) = false) :
    ∀ e ∈ print_content_changes b a content, e.column ≠ col := by
  have hcr : changedRows b a col = [] := by
    rw [changedRows, List.filter_eq_nil_iff]
    intro i hi
    simp [h i hi]
  intro e he
  rw [print_content_changes, List.mem_flatMap] at he
  rcases he with ⟨c, _hc, he⟩
  by_cases hcc : c = col
  · subst hcc
    rw [if_pos hcr] at he
    simp at he
  · by_cases hnil : changedRows b a c = []
    · rw [if_pos hnil] at he
      simp at he
    · rw [if_neg hnil] at he
      rcases List.mem_map.mp he with ⟨i, _, rfl⟩
      simpa using hcc

/-- C6 witness: a column equal and non-missing on the whole intersection
produces no display event for that column. -/
theorem c6_witness :
    (print_content_changes exColB exColB ["a"]).filter
      (fun e => e.column == "a") = [] := by
  rw [List.filter_eq_nil_iff]
  intro e he
  have := c6_no_events_when_mask_empty exColB exColB "a" ["a"] (by decide) e he
  simpa using this
